import Mathlib

/-!
# Verification of the psi `RendezvousClient` wire protocol (Python reference client)

Shallow embedding of
`Sources/Runtime/Microsoft.Psi.Interop/Rendezvous/RendezvousClient.py`.

The byte stream of the socket is modelled as `List Nat` (each element a byte
value).  Python values that can be either `str` or `bytes` are modelled by the
sum `PyV`: a Python `str` is represented by the list of bytes of its UTF-8
encoding (`PyV.str`), a Python `bytes` object by `PyV.bytes`.  In Python a
`str` never compares equal (`==`) to a `bytes` object, which the two distinct
constructors capture.

Encoders model `struct.pack` + `socket.send`: they return the bytes actually
written together with `none` on success or `some e` when an exception is
raised midway (bytes already written are kept, matching the partially written
socket stream).  Decoders model `socket.recv` + `struct.unpack` on a stream
that delivers every `recv(n)` in full (the fragmentation-sensitive behaviour
of the code is modelled separately by `readIntFrag`).
-/

deriving instance DecidableEq for Except

namespace Rendezvous

/-- Byte stream / byte string: list of byte values. -/
abbrev Bytes := List Nat

/-- A Python value that is either a `str` (held as its UTF-8 bytes) or a
`bytes` object.  `'a' == b'a'` is `False` in Python, hence two constructors. -/
inductive PyV where
  | str : Bytes → PyV
  | bytes : Bytes → PyV
deriving DecidableEq

/-- The exceptions the Python client can raise, by their Python class /
message.  `structError` is `struct.error` (pack/unpack range or size
violation; the spec's `EncodingError` for outbound strings), `valueError` is
`ValueError` (raised by the `Endpoint`/`TransportKind` `IntEnum` constructors
on unknown tags, and by `recv` on a negative size), `keyError` is `KeyError`
(raised by `dict.pop` on a missing key; the spec's `UnknownProcess`),
`typeError` is `TypeError` (raised by `struct.unpack('B')` called without a
buffer argument in `start`), `attributeError` is `AttributeError`
(`.encode()` on a `bytes` object), `protocolMismatch` is the
`Exception('RendezvousClient protocol mismatch ...')` of
`__readProtocolVersion`, `unknownEndpoint` the `Exception('Unknown type of
Endpoint.')` of `addProcess`, and `unexpectedAction` the
`Exception('Unexpected rendezvous action.')` of `__readProcessUpdate`. -/
inductive PyErr where
  | structError
  | valueError
  | keyError
  | typeError
  | attributeError
  | protocolMismatch
  | unknownEndpoint
  | unexpectedAction
deriving DecidableEq

/-- Models `struct.unpack('b', ...)`: a byte as a signed value. -/
def sbyte (b : Nat) : Int :=
  if b < 128 then (b : Int) else (b : Int) - 256

/-- Models `struct.unpack('<h', ...)`: two little-endian bytes as a signed 16-bit value. -/
def s16 (b0 b1 : Nat) : Int :=
  let n := b0 + 256 * b1
  if n < 32768 then (n : Int) else (n : Int) - 65536

/-- Models `struct.unpack('<i', ...)`: four little-endian bytes as a signed 32-bit value. -/
def s32 (b0 b1 b2 b3 : Nat) : Int :=
  let n := b0 + 256 * b1 + 65536 * b2 + 16777216 * b3
  if n < 2147483648 then (n : Int) else (n : Int) - 4294967296

/-- Little-endian 2-byte encoding of `u < 65536`. -/
def le2 (u : Nat) : Bytes := [u % 256, u / 256 % 256]

/-- Little-endian 4-byte encoding of `u < 4294967296`. -/
def le4 (u : Nat) : Bytes := [u % 256, u / 256 % 256, u / 65536 % 256, u / 16777216 % 256]

/-- Models `struct.pack('b', v)`: raises `struct.error` outside `[-128, 127]`. -/
def packb (v : Int) : Bytes × Option PyErr :=
  if -128 ≤ v ∧ v ≤ 127 then ([(v % 256).toNat], none) else ([], some .structError)

/-- Models `struct.pack('<h', v)`: raises `struct.error` outside the signed 16-bit range. -/
def packh (v : Int) : Bytes × Option PyErr :=
  if -32768 ≤ v ∧ v ≤ 32767 then (le2 (v % 65536).toNat, none) else ([], some .structError)

/-- Models `struct.pack('<i', v)`: raises `struct.error` outside the signed 32-bit range. -/
def packi (v : Int) : Bytes × Option PyErr :=
  if -2147483648 ≤ v ∧ v ≤ 2147483647 then (le4 (v % 4294967296).toNat, none)
  else ([], some .structError)

/-- Sequencing of two send operations: if the first raised, its bytes stand
and the second never runs; otherwise the second runs after it. -/
def wseq (a b : Bytes × Option PyErr) : Bytes × Option PyErr :=
  match a with
  | (o, none) => (o ++ b.1, b.2)
  | (o, some e) => (o, some e)

/-- Models `RendezvousClient.__sendString`: `struct.pack('b%ds' % len(e), len(e), e)`
on `e = s.encode()`.  For `len(e) > 127` the signed-byte pack raises
`struct.error` before anything is sent; a `bytes` argument has no `.encode()`
and raises `AttributeError`. -/
def sendString : PyV → Bytes × Option PyErr
  | .bytes _ => ([], some .attributeError)
  | .str b => if b.length ≤ 127 then (b.length :: b, none) else ([], some .structError)

/-- Models `socket.recv(n)` on a cooperative stream that has the data: returns the
first `n` bytes (fewer when the stream ends). -/
def recv (n : Nat) (s : Bytes) : Bytes × Bytes := (s.take n, s.drop n)

/-- Models `RendezvousClient.__readByte`: `struct.unpack('b', recv(1))`. -/
def readByte (s : Bytes) : Except PyErr (Int × Bytes) :=
  match s with
  | [] => .error .structError
  | b :: r => .ok (sbyte b, r)

/-- Models `RendezvousClient.__readInt`: `struct.unpack('<i', recv(4))`. -/
def readInt (s : Bytes) : Except PyErr (Int × Bytes) :=
  match s with
  | b0 :: b1 :: b2 :: b3 :: r => .ok (s32 b0 b1 b2 b3, r)
  | _ => .error .structError

/-- Models `struct.unpack('<h', recv(2))`, used for the protocol version. -/
def readInt16 (s : Bytes) : Except PyErr (Int × Bytes) :=
  match s with
  | b0 :: b1 :: r => .ok (s16 b0 b1, r)
  | _ => .error .structError

/-- Models `RendezvousClient.__readString`: reads a signed length byte, `recv`s that
many bytes and unpacks them as a raw byte string (no text decoding: the
result is a Python `bytes` object).  A length byte ≥ 128 reads as a negative
signed byte and `recv` of a negative size raises `ValueError`; a stream that
ends before `len` bytes arrive makes `struct.unpack('%ds')` raise
`struct.error`. -/
def readString (s : Bytes) : Except PyErr (PyV × Bytes) := do
  let (n, s1) ← readByte s
  if n < 0 then .error .valueError
  else
    let k := n.toNat
    let (buf, s2) := recv k s1
    if buf.length = k then .ok (.bytes buf, s2) else .error .structError

/-- Models `RendezvousClient.PROTOCOL_VERSION`. -/
def PROTOCOL_VERSION : Int := 2

/-- Models `RendezvousClient.__sendProtocolVersion`: `struct.pack('<h', 2)`. -/
def sendProtocolVersion : Bytes × Option PyErr := packh PROTOCOL_VERSION

/-- Models `RendezvousClient.__readProtocolVersion`: reads a 16-bit version and
raises the protocol-mismatch `Exception` when it differs from 2. -/
def readProtocolVersion (s : Bytes) : Except PyErr Bytes := do
  let (v, s1) ← readInt16 s
  if v = PROTOCOL_VERSION then .ok s1 else .error .protocolMismatch

/-- Models `RendezvousClient.createStream`: `{ 'name': name, 'type': type }`. -/
structure StreamRec (σ : Type) where
  name : σ
  type : σ
deriving DecidableEq

/-- The endpoint dictionaries built by `createTcpEndpoint`,
`createNetMQEndpoint`, `createRemoteExporterEndpoint` and
`createRemoteClockExporterEndpoint` (the last always stores `'streams': []`).
`transport` is the integer value of the `TransportKind` `IntEnum`.
`otherEndpoint tag` stands for an endpoint dictionary whose `'endpoint'`
value is an integer that is none of the four `Endpoint` enum values
0,1,2,3 (theorems about it carry that side condition). -/
inductive Endpoint (σ : Type) where
  | tcpSource (host : σ) (port : Int) (streams : List (StreamRec σ))
  | netMQSource (address : σ) (streams : List (StreamRec σ))
  | remoteExporter (host : σ) (port : Int) (transport : Int) (streams : List (StreamRec σ))
  | remoteClockExporter (host : σ) (port : Int)
  | otherEndpoint (tag : Int)
deriving DecidableEq

/-- Models `RendezvousClient.createProcess`: `{ 'name': ..., 'endpoints': ..., 'version': ... }`. -/
structure Process (σ : Type) where
  name : σ
  version : σ
  endpoints : List (Endpoint σ)
deriving DecidableEq

/-- The `'endpoint'` tag value of an endpoint dictionary. -/
def tagOf : Endpoint PyV → Int
  | .tcpSource .. => 0
  | .netMQSource .. => 1
  | .remoteExporter .. => 2
  | .remoteClockExporter .. => 3
  | .otherEndpoint t => t

/-- The `'streams'` list of an endpoint dictionary (empty for
`RemoteClockExporter`, which `createRemoteClockExporterEndpoint` builds with
`[]`; unused for `otherEndpoint`, where `addProcess` raises first). -/
def streamsOf : Endpoint PyV → List (StreamRec PyV)
  | .tcpSource _ _ ss => ss
  | .netMQSource _ ss => ss
  | .remoteExporter _ _ _ ss => ss
  | .remoteClockExporter _ _ => []
  | .otherEndpoint _ => []

/-- The two `__sendString` calls for one stream in `addProcess`. -/
def encStream (st : StreamRec PyV) : Bytes × Option PyErr :=
  wseq (sendString st.name) (sendString st.type)

/-- The stream loop of `addProcess`. -/
def encStreams : List (StreamRec PyV) → Bytes × Option PyErr
  | [] => ([], none)
  | st :: rest => wseq (encStream st) (encStreams rest)

/-- The variant-specific field sends of `addProcess` for one endpoint: the
`if/elif` chain after the tag byte.  The unknown-tag case is the
`else: raise Exception('Unknown type of Endpoint.')` branch. -/
def encEndpointFields : Endpoint PyV → Bytes × Option PyErr
  | .tcpSource h p _ => wseq (sendString h) (packi p)
  | .netMQSource a _ => sendString a
  | .remoteExporter h p tr _ => wseq (sendString h) (wseq (packi p) (packi tr))
  | .remoteClockExporter h p => wseq (sendString h) (packi p)
  | .otherEndpoint _ => ([], some .unknownEndpoint)

/-- One iteration of the endpoint loop of `addProcess`: tag byte, the
variant fields, then the stream count and the streams. -/
def encEndpoint (e : Endpoint PyV) : Bytes × Option PyErr :=
  wseq (packb (tagOf e))
    (wseq (encEndpointFields e)
      (wseq (packi ((streamsOf e).length : Int)) (encStreams (streamsOf e))))

/-- The endpoint loop of `addProcess`. -/
def encEndpoints : List (Endpoint PyV) → Bytes × Option PyErr
  | [] => ([], none)
  | e :: rest => wseq (encEndpoint e) (encEndpoints rest)

/-- The body of the add-process frame, everything `addProcess` sends after
the frame tag: name, version, endpoint count, endpoints. -/
def encProcessBody (p : Process PyV) : Bytes × Option PyErr :=
  wseq (sendString p.name)
    (wseq (sendString p.version)
      (wseq (packi (p.endpoints.length : Int)) (encEndpoints p.endpoints)))

/-- Models `RendezvousClient.addProcess`: frame tag `1` then the process body. -/
def addProcess (p : Process PyV) : Bytes × Option PyErr :=
  wseq (packb 1) (encProcessBody p)

/-- Models `RendezvousClient.removeProcess`: frame tag `2` then the process name. -/
def removeProcess (p : Process PyV) : Bytes × Option PyErr :=
  wseq (packb 2) (sendString p.name)

/-- The loop body of `__readStreams`, iterated `count` times (Python
`range(count)`: zero iterations when `count` is negative, hence the caller
passes `count.toNat`). -/
def readStreamsLoop : Nat → Bytes → Except PyErr (List (StreamRec PyV) × Bytes)
  | 0, s => .ok ([], s)
  | n + 1, s => do
    let (nm, s1) ← readString s
    let (ty, s2) ← readString s1
    let (rest, s3) ← readStreamsLoop n s2
    .ok (⟨nm, ty⟩ :: rest, s3)

/-- Models `RendezvousClient.__readStreams`. -/
def readStreams (s : Bytes) : Except PyErr (List (StreamRec PyV) × Bytes) := do
  let (count, s1) ← readInt s
  readStreamsLoop count.toNat s1

/-- Models `RendezvousClient.__readEndpoint`.  `Endpoint(b)` on a value outside
{0,1,2,3} and `TransportKind(t)` on a value outside {0,1,2} raise
`ValueError` (the trailing `else: raise` in the source is unreachable, the
`IntEnum` constructor having raised already). -/
def readEndpoint (s : Bytes) : Except PyErr (Endpoint PyV × Bytes) := do
  let (tag, s1) ← readByte s
  if tag = 0 then do
    let (h, s2) ← readString s1
    let (p, s3) ← readInt s2
    let (ss, s4) ← readStreams s3
    .ok (.tcpSource h p ss, s4)
  else if tag = 1 then do
    let (a, s2) ← readString s1
    let (ss, s3) ← readStreams s2
    .ok (.netMQSource a ss, s3)
  else if tag = 2 then do
    let (h, s2) ← readString s1
    let (p, s3) ← readInt s2
    let (tr, s4) ← readInt s3
    if tr = 0 ∨ tr = 1 ∨ tr = 2 then do
      let (ss, s5) ← readStreams s4
      .ok (.remoteExporter h p tr ss, s5)
    else .error .valueError
  else if tag = 3 then do
    let (h, s2) ← readString s1
    let (p, s3) ← readInt s2
    let (_, s4) ← readInt s3
    .ok (.remoteClockExporter h p, s4)
  else .error .valueError

/-- The endpoint loop of `__readProcess`. -/
def readEndpointsLoop : Nat → Bytes → Except PyErr (List (Endpoint PyV) × Bytes)
  | 0, s => .ok ([], s)
  | n + 1, s => do
    let (e, s1) ← readEndpoint s
    let (rest, s2) ← readEndpointsLoop n s1
    .ok (e :: rest, s2)

/-- Models `RendezvousClient.__readProcess`: name, version, endpoint count, endpoints. -/
def readProcess (s : Bytes) : Except PyErr (Process PyV × Bytes) := do
  let (nm, s1) ← readString s
  let (ver, s2) ← readString s1
  let (n, s3) ← readInt s2
  let (es, s4) ← readEndpointsLoop n.toNat s3
  .ok (⟨nm, ver, es⟩, s4)

/-- The rendezvous table: the Python dict `RendezvousClient.rendezvous`
(insertion-ordered association list with unique keys). -/
abbrev Table := List (PyV × Process PyV)

/-- Models `d[k] = v` on a Python dict: replace in place when present, append when absent. -/
def dictSet : Table → PyV → Process PyV → Table
  | [], k, v => [(k, v)]
  | (k0, v0) :: rest, k, v =>
    if k0 = k then (k, v) :: rest else (k0, v0) :: dictSet rest k v

/-- Models `d.pop(k)` on a Python dict: return and remove the entry, `KeyError` when absent. -/
def dictPop : Table → PyV → Except PyErr (Process PyV × Table)
  | [], _ => .error .keyError
  | (k0, v0) :: rest, k =>
    if k0 = k then .ok (v0, rest)
    else do
      let (v, t) ← dictPop rest k
      .ok (v, (k0, v0) :: t)

/-- The keys of a table. -/
def keys (t : Table) : List PyV := t.map Prod.fst

/-- Models `RendezvousClient.__readProcessUpdate` acting on the table: reads the
update tag; `0` stops the loop, `1` decodes a process and stores it under its
(decoded, `bytes`) name, `2` decodes a name and `pop`s it (callback effects
are not modelled; no claim concerns them). -/
def readProcessUpdate (t : Table) (s : Bytes) : Except PyErr (Bool × Table × Bytes) := do
  let (u, s1) ← readByte s
  if u = 0 then .ok (false, t, s1)
  else if u = 1 then do
    let (p, s2) ← readProcess s1
    .ok (true, dictSet t p.name p, s2)
  else if u = 2 then do
    let (nm, s2) ← readString s1
    let (_, t2) ← dictPop t nm
    .ok (true, t2, s2)
  else .error .unexpectedAction

/-- Models `RendezvousClient.__readProcessUpdates`: `try: while readProcessUpdate():
pass except: pass` — any raised exception ends the loop with the table as it
stands; fuel bounds the number of iterations modelled. -/
def readProcessUpdates : Nat → Table → Bytes → Table
  | 0, t, _ => t
  | n + 1, t, s =>
    match readProcessUpdate t s with
    | .error _ => t
    | .ok (false, t2, _) => t2
    | .ok (true, t2, s2) => readProcessUpdates n t2 s2

/-- Models `RendezvousClient.start` up to its first defect, as a function of the
server's byte stream: sends the protocol version, reads and checks the
server's version, then executes `buf = recv(1); len = struct.unpack('B')` —
`struct.unpack` called without its buffer argument, which unconditionally
raises `TypeError`, so the snapshot (client address, process count, process
records) is never read and `start` never returns.  Result: the bytes written
and the outcome. -/
def start (s : Bytes) : Bytes × Except PyErr Bytes :=
  (sendProtocolVersion.1,
    match readProtocolVersion s with
    | .error e => .error e
    | .ok _ => .error .typeError)

/-- Models `RendezvousClient.__init__` as it acts on the rendezvous table:
`rendezvous = {}` sits in the class body, not in `__init__` (which only sets
`serverAddress` and the socket), so the dict is a class attribute created
once and shared by every instance; constructing a client leaves it as it is. -/
def initClient (classTable : Table) : Table := classTable

/-- Models `self.rendezvous` read from any instance: attribute lookup falls through
to the one class-level dict. -/
def clientRendezvous (classTable : Table) : Table := classTable

/-- Models `addProcess` as it acts on the class table: the method only writes to the
socket; `self.rendezvous` is never assigned or mutated in it. -/
def clientAddProcess (classTable : Table) (p : Process PyV) :
    Table × (Bytes × Option PyErr) :=
  (classTable, addProcess p)

/-- Models `removeProcess` as it acts on the class table: the method only writes to
the socket; `self.rendezvous` is never assigned or mutated in it. -/
def clientRemoveProcess (classTable : Table) (p : Process PyV) :
    Table × (Bytes × Option PyErr) :=
  (classTable, removeProcess p)

/-- Models `__readInt` under transport fragmentation: `recv(4)` may legally deliver
only `k` bytes of the pending data; `struct.unpack('<i', buf)` then raises
`struct.error` unless exactly 4 bytes arrived.  The code never loops to
complete a short read. -/
def readIntFrag (k : Nat) (s : Bytes) : Except PyErr (Int × Bytes) :=
  let buf := s.take (min k 4)
  match buf with
  | [b0, b1, b2, b3] => .ok (s32 b0 b1 b2 b3, s.drop 4)
  | _ => .error .structError

/-! ## Concrete records used in counterexamples and witness evaluations -/

/-- A process as the owning application builds it: `str` name and version. -/
def pCex : Process PyV := ⟨.str [112], .str [118], []⟩

/-- What `__readProcess` actually yields for `pCex`: `bytes` fields. -/
def pCexDec : Process PyV := ⟨.bytes [112], .bytes [118], []⟩

/-- A process exercising all four endpoint variants, for witness evaluation. -/
def pWit : Process PyV :=
  ⟨.str [110], .str [49],
    [.tcpSource (.str [104]) 5000 [⟨.str [114], .str [105]⟩],
     .netMQSource (.str [97]) [⟨.str [98], .str [99]⟩],
     .remoteExporter (.str [100]) 80 2 [⟨.str [101], .str [102]⟩],
     .remoteClockExporter (.str [103]) 7]⟩

/-- The wire bytes of an add-process frame for a process named `b'p'` with
empty version and no endpoints. -/
def frameP : Bytes := [1, 1, 112, 0, 0, 0, 0, 0]

/-- The decoded process carried by `frameP`. -/
def procP : Process PyV := ⟨.bytes [112], .bytes [], []⟩

/-- A decoded process named `b'n'`, for the remove-frame witness. -/
def procN : Process PyV := ⟨.bytes [110], .bytes [], []⟩

/-- A one-entry table keyed by `b'n'`. -/
def tOne : Table := [(.bytes [110], procN)]

/-! ## Helper lemmas: primitive codec round trips -/

theorem wseq_eq (a b : Bytes × Option PyErr) (ha : a.2 = none) :
    wseq a b = (a.1 ++ b.1, b.2) := by
  obtain ⟨o, e⟩ := a
  cases e with
  | none => rfl
  | some e2 => exact absurd ha (by simp)

theorem take_len_app {α : Type} (l r : List α) : (l ++ r).take l.length = l := by
  induction l with
  | nil => rfl
  | cons a t ih => simp [List.take, ih]

theorem drop_len_app {α : Type} (l r : List α) : (l ++ r).drop l.length = r := by
  induction l with
  | nil => rfl
  | cons a t ih => simp [List.drop, ih]

theorem sbyte_emod (v : Int) (h1 : -128 ≤ v) (h2 : v ≤ 127) :
    sbyte (v % 256).toNat = v := by
  unfold sbyte
  split <;> omega

theorem packb_eq (v : Int) (h1 : -128 ≤ v) (h2 : v ≤ 127) :
    packb v = ([(v % 256).toNat], none) := by
  unfold packb
  rw [if_pos ⟨h1, h2⟩]

theorem readByte_packb (v : Int) (h1 : -128 ≤ v) (h2 : v ≤ 127) (r : Bytes) :
    readByte ((packb v).1 ++ r) = .ok (v, r) := by
  rw [packb_eq v h1 h2]
  simp [readByte, sbyte_emod v h1 h2]

theorem readInt16_packh (v : Int) (h1 : -32768 ≤ v) (h2 : v ≤ 32767) (r : Bytes) :
    readInt16 ((packh v).1 ++ r) = .ok (v, r) := by
  unfold packh le2
  rw [if_pos ⟨h1, h2⟩]
  simp only [List.cons_append, List.nil_append, readInt16, s16, Except.ok.injEq,
    Prod.mk.injEq, and_true]
  split <;> omega

theorem readInt_packi (v : Int) (h1 : -2147483648 ≤ v) (h2 : v ≤ 2147483647) (r : Bytes) :
    readInt ((packi v).1 ++ r) = .ok (v, r) := by
  unfold packi le4
  rw [if_pos ⟨h1, h2⟩]
  simp only [List.cons_append, List.nil_append, readInt, s32, Except.ok.injEq,
    Prod.mk.injEq, and_true]
  split <;> omega

theorem sendString_str (b : Bytes) (h : b.length ≤ 127) :
    sendString (.str b) = (b.length :: b, none) := by
  simp [sendString, h]

theorem readString_append (b : Bytes) (h : b.length ≤ 127) (r : Bytes) :
    readString ((b.length :: b) ++ r) = .ok (.bytes b, r) := by
  have hb : sbyte b.length = (b.length : Int) := by
    unfold sbyte
    split <;> omega
  have h1 : readString ((b.length :: b) ++ r)
      = (if (sbyte b.length) < 0 then Except.error .valueError
         else if ((b ++ r).take (sbyte b.length).toNat).length = (sbyte b.length).toNat
           then Except.ok (.bytes ((b ++ r).take (sbyte b.length).toNat),
                           (b ++ r).drop (sbyte b.length).toNat)
           else Except.error .structError) := rfl
  have htn : ((b.length : Int)).toNat = b.length := by omega
  rw [h1, hb, htn, take_len_app, drop_len_app,
    if_neg (by omega : ¬ ((b.length : Int) < 0)), if_pos rfl]

/-! ## Well-formedness of outbound records and the str-to-bytes field map -/

/-- The value is a Python `str` whose encoding fits the 1-byte length prefix. -/
def strOKb : PyV → Bool
  | .str b => decide (b.length ≤ 127)
  | .bytes _ => false

/-- The value fits `struct.pack('<i', ...)`. -/
def i32OKb (v : Int) : Bool := decide (-2147483648 ≤ v) && decide (v ≤ 2147483647)

def streamOKb (st : StreamRec PyV) : Bool := strOKb st.name && strOKb st.type

/-- The endpoint is one of the four variants, its strings fit 127 bytes, its
port fits int32, its transport is a `TransportKind` value, and its stream
list's length fits int32. -/
def endpointOKb : Endpoint PyV → Bool
  | .tcpSource h p ss =>
    strOKb h && i32OKb p && decide (ss.length ≤ 2147483647) && ss.all streamOKb
  | .netMQSource a ss =>
    strOKb a && decide (ss.length ≤ 2147483647) && ss.all streamOKb
  | .remoteExporter h p tr ss =>
    strOKb h && i32OKb p && (decide (tr = 0) || decide (tr = 1) || decide (tr = 2)) &&
      decide (ss.length ≤ 2147483647) && ss.all streamOKb
  | .remoteClockExporter h p => strOKb h && i32OKb p
  | .otherEndpoint _ => false

def processOKb (p : Process PyV) : Bool :=
  strOKb p.name && strOKb p.version && decide (p.endpoints.length ≤ 2147483647) &&
    p.endpoints.all endpointOKb

/-- What decoding gives back for an encoded `str`: its raw bytes. -/
def pvBytes : PyV → PyV
  | .str b => .bytes b
  | .bytes b => .bytes b

def streamB (st : StreamRec PyV) : StreamRec PyV := ⟨pvBytes st.name, pvBytes st.type⟩

def endpointB : Endpoint PyV → Endpoint PyV
  | .tcpSource h p ss => .tcpSource (pvBytes h) p (ss.map streamB)
  | .netMQSource a ss => .netMQSource (pvBytes a) (ss.map streamB)
  | .remoteExporter h p tr ss => .remoteExporter (pvBytes h) p tr (ss.map streamB)
  | .remoteClockExporter h p => .remoteClockExporter (pvBytes h) p
  | .otherEndpoint t => .otherEndpoint t

def processB (p : Process PyV) : Process PyV :=
  ⟨pvBytes p.name, pvBytes p.version, p.endpoints.map endpointB⟩

/-! ## Compositional round-trip lemmas -/

theorem ebind_ok {α β : Type} (a : α) (f : α → Except PyErr β) :
    (Except.ok a : Except PyErr α) >>= f = f a := rfl

theorem sendString_none (v : PyV) (h : strOKb v = true) : (sendString v).2 = none := by
  cases v with
  | bytes b => simp [strOKb] at h
  | str b => rw [sendString_str b (by simpa [strOKb] using h)]

theorem readString_send (v : PyV) (h : strOKb v = true) (r : Bytes) :
    readString ((sendString v).1 ++ r) = .ok (pvBytes v, r) := by
  cases v with
  | bytes b => simp [strOKb] at h
  | str b =>
    have hb : b.length ≤ 127 := by simpa [strOKb] using h
    rw [sendString_str b hb]
    exact readString_append b hb r

theorem encStreams_cons (st : StreamRec PyV) (rest : List (StreamRec PyV))
    (h1 : (sendString st.name).2 = none) (h2 : (sendString st.type).2 = none) :
    encStreams (st :: rest) =
      ((sendString st.name).1 ++ ((sendString st.type).1 ++ (encStreams rest).1),
        (encStreams rest).2) := by
  show wseq (wseq (sendString st.name) (sendString st.type)) (encStreams rest) = _
  rw [wseq_eq _ _ h1,
    wseq_eq ((sendString st.name).1 ++ (sendString st.type).1, (sendString st.type).2)
      (encStreams rest) h2,
    List.append_assoc]

theorem encStreams_none (l : List (StreamRec PyV)) (h : l.all streamOKb = true) :
    (encStreams l).2 = none := by
  induction l with
  | nil => rfl
  | cons st rest ih =>
    rw [List.all_cons, Bool.and_eq_true] at h
    obtain ⟨hst, hrest⟩ := h
    rw [streamOKb, Bool.and_eq_true] at hst
    rw [encStreams_cons st rest (sendString_none _ hst.1) (sendString_none _ hst.2)]
    exact ih hrest

theorem readStreamsLoop_enc (l : List (StreamRec PyV)) (h : l.all streamOKb = true)
    (r : Bytes) :
    readStreamsLoop l.length ((encStreams l).1 ++ r) = .ok (l.map streamB, r) := by
  induction l generalizing r with
  | nil => rfl
  | cons st rest ih =>
    rw [List.all_cons, Bool.and_eq_true] at h
    obtain ⟨hst, hrest⟩ := h
    rw [streamOKb, Bool.and_eq_true] at hst
    obtain ⟨hn, ht⟩ := hst
    rw [encStreams_cons st rest (sendString_none _ hn) (sendString_none _ ht)]
    simp only [List.length_cons, readStreamsLoop, List.append_assoc,
      readString_send st.name hn, readString_send st.type ht, ebind_ok, ih hrest,
      List.map_cons, streamB]

theorem wseq_eq2 (a b : Bytes × Option PyErr) (ha : a.2 = none) (hb : b.2 = none) :
    wseq a b = (a.1 ++ b.1, none) := by
  rw [wseq_eq a b ha, hb]

theorem wseq_none2 (a b : Bytes × Option PyErr) (ha : a.2 = none) (hb : b.2 = none) :
    (wseq a b).2 = none := by
  rw [wseq_eq2 a b ha hb]

theorem packb_none (v : Int) (h1 : -128 ≤ v) (h2 : v ≤ 127) : (packb v).2 = none := by
  rw [packb_eq v h1 h2]

theorem packi_none (v : Int) (h1 : -2147483648 ≤ v) (h2 : v ≤ 2147483647) :
    (packi v).2 = none := by
  unfold packi
  rw [if_pos ⟨h1, h2⟩]

theorem readStreams_enc (l : List (StreamRec PyV)) (h : l.all streamOKb = true)
    (hlen : l.length ≤ 2147483647) (r : Bytes) :
    readStreams ((packi (l.length : Int)).1 ++ ((encStreams l).1 ++ r)) =
      .ok (l.map streamB, r) := by
  have htn : ((l.length : Int)).toNat = l.length := by omega
  simp only [readStreams, readInt_packi (l.length : Int) (by omega) (by omega), ebind_ok,
    htn, readStreamsLoop_enc l h r]

theorem encEndpoint_shape (e : Endpoint PyV) (htag : (packb (tagOf e)).2 = none)
    (hf : (encEndpointFields e).2 = none)
    (hc : (packi ((streamsOf e).length : Int)).2 = none)
    (hs : (encStreams (streamsOf e)).2 = none) :
    encEndpoint e = ((packb (tagOf e)).1 ++ ((encEndpointFields e).1 ++
      ((packi ((streamsOf e).length : Int)).1 ++ (encStreams (streamsOf e)).1)), none) := by
  unfold encEndpoint
  rw [wseq_eq2 _ _ hc hs,
    wseq_eq2 (encEndpointFields e)
      ((packi ((streamsOf e).length : Int)).1 ++ (encStreams (streamsOf e)).1, none) hf rfl,
    wseq_eq2 (packb (tagOf e))
      ((encEndpointFields e).1 ++
        ((packi ((streamsOf e).length : Int)).1 ++ (encStreams (streamsOf e)).1), none)
      htag rfl]

theorem rt_endpoint (e : Endpoint PyV) (h : endpointOKb e = true) :
    (encEndpoint e).2 = none ∧
      ∀ r, readEndpoint ((encEndpoint e).1 ++ r) = .ok (endpointB e, r) := by
  cases e with
  | tcpSource h0 p0 ss =>
    simp only [endpointOKb, Bool.and_eq_true, i32OKb, decide_eq_true_eq] at h
    obtain ⟨⟨⟨hh, hp1, hp2⟩, hlen⟩, hss⟩ := h
    have henc := encEndpoint_shape (.tcpSource h0 p0 ss) (packb_none 0 (by omega) (by omega))
      (wseq_none2 _ _ (sendString_none _ hh) (packi_none p0 hp1 hp2))
      (packi_none _ (by omega) (by simp only [streamsOf]; omega))
      (encStreams_none _ hss)
    rw [henc]
    refine ⟨rfl, fun r => ?_⟩
    simp only [streamsOf, encEndpointFields,
      wseq_eq2 _ _ (sendString_none _ hh) (packi_none p0 hp1 hp2)]
    simp only [readEndpoint, tagOf, List.append_assoc, readByte_packb 0 (by omega) (by omega),
      ebind_ok, readString_send _ hh, readInt_packi p0 hp1 hp2,
      readStreams_enc ss hss hlen, endpointB]
    simp
  | netMQSource a0 ss =>
    simp only [endpointOKb, Bool.and_eq_true, decide_eq_true_eq] at h
    obtain ⟨⟨ha, hlen⟩, hss⟩ := h
    have henc := encEndpoint_shape (.netMQSource a0 ss) (packb_none 1 (by omega) (by omega))
      (sendString_none _ ha)
      (packi_none _ (by omega) (by simp only [streamsOf]; omega))
      (encStreams_none _ hss)
    rw [henc]
    refine ⟨rfl, fun r => ?_⟩
    simp only [streamsOf, encEndpointFields]
    simp only [readEndpoint, tagOf, List.append_assoc, readByte_packb 1 (by omega) (by omega),
      ebind_ok, readString_send _ ha, readStreams_enc ss hss hlen, endpointB]
    simp
  | remoteExporter h0 p0 tr ss =>
    simp only [endpointOKb, Bool.and_eq_true, i32OKb, Bool.or_eq_true,
      decide_eq_true_eq] at h
    obtain ⟨⟨⟨⟨hh, hp1, hp2⟩, htr⟩, hlen⟩, hss⟩ := h
    have htr1 : -2147483648 ≤ tr := by omega
    have htr2 : tr ≤ 2147483647 := by omega
    have henc := encEndpoint_shape (.remoteExporter h0 p0 tr ss)
      (packb_none 2 (by omega) (by omega))
      (wseq_none2 _ _ (sendString_none _ hh)
        (wseq_none2 _ _ (packi_none p0 hp1 hp2) (packi_none tr htr1 htr2)))
      (packi_none _ (by omega) (by simp only [streamsOf]; omega))
      (encStreams_none _ hss)
    rw [henc]
    refine ⟨rfl, fun r => ?_⟩
    simp only [streamsOf, encEndpointFields,
      wseq_eq2 _ _ (packi_none p0 hp1 hp2) (packi_none tr htr1 htr2),
      wseq_eq2 (sendString h0) ((packi p0).1 ++ (packi tr).1, none)
        (sendString_none _ hh) rfl]
    simp only [readEndpoint, tagOf, List.append_assoc, readByte_packb 2 (by omega) (by omega),
      ebind_ok, readString_send _ hh, readInt_packi p0 hp1 hp2,
      readInt_packi tr htr1 htr2, readStreams_enc ss hss hlen, endpointB]
    rw [if_pos (show tr = 0 ∨ tr = 1 ∨ tr = 2 from by tauto)]
    simp
  | remoteClockExporter h0 p0 =>
    simp only [endpointOKb, Bool.and_eq_true, i32OKb, decide_eq_true_eq] at h
    obtain ⟨hh, hp1, hp2⟩ := h
    have henc := encEndpoint_shape (.remoteClockExporter h0 p0)
      (packb_none 3 (by omega) (by omega))
      (wseq_none2 _ _ (sendString_none _ hh) (packi_none p0 hp1 hp2))
      (packi_none _ (by simp only [streamsOf, List.length_nil]; omega)
        (by simp only [streamsOf, List.length_nil]; omega))
      (encStreams_none _ rfl)
    rw [henc]
    refine ⟨rfl, fun r => ?_⟩
    simp only [streamsOf, encEndpointFields, List.length_nil, Nat.cast_zero, encStreams,
      List.append_nil,
      wseq_eq2 _ _ (sendString_none _ hh) (packi_none p0 hp1 hp2)]
    simp only [readEndpoint, tagOf, List.append_assoc, readByte_packb 3 (by omega) (by omega),
      ebind_ok, readString_send _ hh, readInt_packi p0 hp1 hp2,
      readInt_packi 0 (by omega) (by omega), endpointB]
    simp
  | otherEndpoint t =>
    simp [endpointOKb] at h

theorem encEndpoints_cons (e : Endpoint PyV) (rest : List (Endpoint PyV))
    (h1 : (encEndpoint e).2 = none) :
    encEndpoints (e :: rest) =
      ((encEndpoint e).1 ++ (encEndpoints rest).1, (encEndpoints rest).2) := by
  show wseq (encEndpoint e) (encEndpoints rest) = _
  rw [wseq_eq _ _ h1]

theorem encEndpoints_none (l : List (Endpoint PyV)) (h : l.all endpointOKb = true) :
    (encEndpoints l).2 = none := by
  induction l with
  | nil => rfl
  | cons e rest ih =>
    rw [List.all_cons, Bool.and_eq_true] at h
    rw [encEndpoints_cons e rest (rt_endpoint e h.1).1]
    exact ih h.2

theorem readEndpointsLoop_enc (l : List (Endpoint PyV)) (h : l.all endpointOKb = true)
    (r : Bytes) :
    readEndpointsLoop l.length ((encEndpoints l).1 ++ r) = .ok (l.map endpointB, r) := by
  induction l generalizing r with
  | nil => rfl
  | cons e rest ih =>
    rw [List.all_cons, Bool.and_eq_true] at h
    rw [encEndpoints_cons e rest (rt_endpoint e h.1).1]
    simp only [List.length_cons, readEndpointsLoop, List.append_assoc,
      (rt_endpoint e h.1).2, ebind_ok, ih h.2, List.map_cons]

theorem encProcessBody_shape (p : Process PyV) (h : processOKb p = true) :
    encProcessBody p = ((sendString p.name).1 ++ ((sendString p.version).1 ++
      ((packi (p.endpoints.length : Int)).1 ++ (encEndpoints p.endpoints).1)), none) := by
  simp only [processOKb, Bool.and_eq_true, decide_eq_true_eq] at h
  obtain ⟨⟨⟨hn, hv⟩, hlen⟩, he⟩ := h
  unfold encProcessBody
  rw [wseq_eq2 _ _ (packi_none _ (by omega) (by omega)) (encEndpoints_none _ he),
    wseq_eq2 (sendString p.version)
      ((packi (p.endpoints.length : Int)).1 ++ (encEndpoints p.endpoints).1, none)
      (sendString_none _ hv) rfl,
    wseq_eq2 (sendString p.name)
      ((sendString p.version).1 ++
        ((packi (p.endpoints.length : Int)).1 ++ (encEndpoints p.endpoints).1), none)
      (sendString_none _ hn) rfl]

theorem readProcess_enc (p : Process PyV) (h : processOKb p = true) (r : Bytes) :
    readProcess ((encProcessBody p).1 ++ r) = .ok (processB p, r) := by
  have hshape := encProcessBody_shape p h
  simp only [processOKb, Bool.and_eq_true, decide_eq_true_eq] at h
  obtain ⟨⟨⟨hn, hv⟩, hlen⟩, he⟩ := h
  have htn : (((p.endpoints.length : Nat) : Int)).toNat = p.endpoints.length := by omega
  rw [hshape]
  simp only [readProcess, List.append_assoc, readString_send _ hn, readString_send _ hv,
    readInt_packi (p.endpoints.length : Int) (by omega) (by omega), ebind_ok, htn,
    readEndpointsLoop_enc p.endpoints he, processB]

/-! ## Helper lemmas: dictionary and update-loop behaviour -/

theorem ebind_err {α β : Type} (e : PyErr) (f : α → Except PyErr β) :
    (Except.error e : Except PyErr α) >>= f = .error e := rfl

theorem dictPop_not_mem (t : Table) (k : PyV) (hm : k ∉ keys t) :
    dictPop t k = .error .keyError := by
  induction t with
  | nil => rfl
  | cons kv rest ih =>
    obtain ⟨k0, v0⟩ := kv
    have hk : ¬ (k0 = k) := by
      intro he
      exact hm (by simp [keys, he])
    have hr : k ∉ keys rest := by
      intro hmem
      exact hm (by simp [keys] at hmem ⊢; exact .inr hmem)
    show (if k0 = k then _ else _) = _
    rw [if_neg hk, ih hr]
    rfl

theorem dictPop_mem (t : Table) (k : PyV) (hnd : (keys t).Nodup) (hm : k ∈ keys t) :
    ∃ p t2, dictPop t k = .ok (p, t2) ∧ k ∉ keys t2 := by
  induction t with
  | nil => simp [keys] at hm
  | cons kv rest ih =>
    obtain ⟨k0, v0⟩ := kv
    rw [keys, List.map_cons, List.nodup_cons] at hnd
    by_cases hk : k0 = k
    · subst hk
      refine ⟨v0, rest, ?_, hnd.1⟩
      show (if k0 = k0 then _ else _) = _
      rw [if_pos rfl]
    · have hr : k ∈ keys rest := by
        rw [keys, List.map_cons, List.mem_cons] at hm
        exact hm.resolve_left (by intro he; exact hk he.symm)
      obtain ⟨p, t2, hpop, hnot⟩ := ih hnd.2 hr
      refine ⟨p, (k0, v0) :: t2, ?_, ?_⟩
      · show (if k0 = k then _ else _) = _
        rw [if_neg hk, hpop]
        rfl
      · intro hmem
        rw [keys, List.map_cons, List.mem_cons] at hmem
        rcases hmem with he | hmem
        · exact hk he.symm
        · exact hnot hmem

theorem readProcessUpdates_stop (n : Nat) (t : Table) (s : Bytes) (e : PyErr)
    (h : readProcessUpdate t s = .error e) :
    readProcessUpdates (n + 1) t s = t := by
  rw [readProcessUpdates, h]

theorem sbyte_two : sbyte 2 = 2 := by decide

theorem readProcessUpdate_removeFrame_ok (t : Table) (b : Bytes) (s : Bytes)
    (hb : b.length ≤ 127) (p : Process PyV) (t2 : Table)
    (hpop : dictPop t (.bytes b) = .ok (p, t2)) :
    readProcessUpdate t (2 :: ((b.length :: b) ++ s)) = .ok (true, t2, s) := by
  have hrb : readByte (2 :: ((b.length :: b) ++ s)) = .ok (2, (b.length :: b) ++ s) := by
    simp [readByte, sbyte_two]
  have hrs : readString (b.length :: (b ++ s)) = .ok (.bytes b, s) := by
    simpa using readString_append b hb s
  simp only [readProcessUpdate, hrb, ebind_ok]
  norm_num
  rw [hrs]
  simp only [ebind_ok, hpop]

theorem readProcessUpdate_removeFrame_err (t : Table) (b : Bytes) (s : Bytes)
    (hb : b.length ≤ 127)
    (hpop : dictPop t (.bytes b) = .error .keyError) :
    readProcessUpdate t (2 :: ((b.length :: b) ++ s)) = .error .keyError := by
  have hrb : readByte (2 :: ((b.length :: b) ++ s)) = .ok (2, (b.length :: b) ++ s) := by
    simp [readByte, sbyte_two]
  have hrs : readString (b.length :: (b ++ s)) = .ok (.bytes b, s) := by
    simpa using readString_append b hb s
  simp only [readProcessUpdate, hrb, ebind_ok]
  norm_num
  rw [hrs]
  simp only [ebind_ok, hpop, ebind_err]

theorem readProtocolVersion_packh (v : Int) (h1 : -32768 ≤ v) (h2 : v ≤ 32767) (r : Bytes) :
    readProtocolVersion ((packh v).1 ++ r) =
      if v = 2 then .ok r else .error .protocolMismatch := by
  simp only [readProtocolVersion, readInt16_packh v h1 h2, ebind_ok, PROTOCOL_VERSION]

theorem readProcessUpdate_badTag (t : Table) (c : Nat) (s : Bytes)
    (h0 : sbyte c ≠ 0) (h1 : sbyte c ≠ 1) (h2 : sbyte c ≠ 2) :
    readProcessUpdate t (c :: s) = .error .unexpectedAction := by
  have hrb : readByte (c :: s) = .ok (sbyte c, s) := rfl
  simp only [readProcessUpdate, hrb, ebind_ok]
  rw [if_neg h0, if_neg h1, if_neg h2]

theorem readEndpoint_badTag (c : Nat) (s : Bytes)
    (h0 : sbyte c ≠ 0) (h1 : sbyte c ≠ 1) (h2 : sbyte c ≠ 2) (h3 : sbyte c ≠ 3) :
    readEndpoint (c :: s) = .error .valueError := by
  have hrb : readByte (c :: s) = .ok (sbyte c, s) := rfl
  simp only [readEndpoint, hrb, ebind_ok]
  rw [if_neg h0, if_neg h1, if_neg h2, if_neg h3]

theorem readEndpoint_badTransport (hb : Bytes) (port tv : Int) (s : Bytes)
    (hh : hb.length ≤ 127)
    (hp1 : -2147483648 ≤ port) (hp2 : port ≤ 2147483647)
    (ht1 : -2147483648 ≤ tv) (ht2 : tv ≤ 2147483647)
    (h0 : tv ≠ 0) (h1 : tv ≠ 1) (h2 : tv ≠ 2) :
    readEndpoint (2 :: ((hb.length :: hb) ++ ((packi port).1 ++ ((packi tv).1 ++ s)))) =
      .error .valueError := by
  have hrb : readByte (2 :: ((hb.length :: hb) ++ ((packi port).1 ++ ((packi tv).1 ++ s))))
      = .ok (2, (hb.length :: hb) ++ ((packi port).1 ++ ((packi tv).1 ++ s))) := by
    simp [readByte, sbyte_two]
  have hrs : readString (hb.length :: (hb ++ ((packi port).1 ++ ((packi tv).1 ++ s))))
      = .ok (.bytes hb, (packi port).1 ++ ((packi tv).1 ++ s)) := by
    simpa using readString_append hb hh ((packi port).1 ++ ((packi tv).1 ++ s))
  simp only [readEndpoint, hrb, ebind_ok]
  norm_num
  rw [hrs]
  simp only [ebind_ok, readInt_packi port hp1 hp2, readInt_packi tv ht1 ht2]
  rw [if_neg (by tauto : ¬ (tv = 0 ∨ tv = 1 ∨ tv = 2))]

/-! ## Claim theorems -/

/-- C1, counterexample: encoding the process `pCex` (built with `str` fields,
all well within the 127-byte limit) as the body of an add-process frame and
decoding it back does NOT reproduce an identical record: `__readString`
returns raw `bytes`, so every string field comes back as the `bytes` object
holding the UTF-8 encoding, which in Python is not equal to the original
`str`. -/
theorem c1_roundtrip_counterexample :
    (encProcessBody pCex).2 = none ∧
    readProcess (encProcessBody pCex).1 = .ok (pCexDec, []) ∧
    pCexDec ≠ pCex ∧
    readProcess (encProcessBody pCex).1 ≠ .ok (pCex, []) := by
  decide

/-- C1, amended: for every Process built from the four endpoint variants
whose string fields encode to at most 127 bytes (ports and list lengths in
int32 range, transport a `TransportKind` value), encoding as the add-process
frame body and decoding yields a record identical to the original field for
field, except that every string field is returned as the raw byte string
(`bytes`) of the original `str`, which is what `processB` maps. -/
theorem c1_roundtrip_bytes (p : Process PyV) (h : processOKb p = true) (r : Bytes) :
    (encProcessBody p).2 = none ∧
      readProcess ((encProcessBody p).1 ++ r) = .ok (processB p, r) :=
  ⟨by rw [encProcessBody_shape p h], readProcess_enc p h r⟩

/-- Witness for C1: the amended round trip evaluated on a process exercising
all four endpoint variants. -/
theorem c1_roundtrip_bytes_witness :
    processOKb pWit = true ∧
    ((encProcessBody pWit).2 = none ∧
      readProcess ((encProcessBody pWit).1 ++ []) = .ok (processB pWit, [])) :=
  ⟨by decide, c1_roundtrip_bytes pWit (by decide) []⟩

/-- C2: after a successful handshake (the server replies with version 2,
bytes `02 00`), `start` always raises `TypeError` — the snapshot read begins
with `len = struct.unpack('B')`, `struct.unpack` called without its buffer
argument — so `connect` never returns and the rendezvous table is never
populated, for every remainder of the server's stream. -/
theorem c2_start_always_fails (r : Bytes) :
    readProtocolVersion (2 :: 0 :: r) = .ok r ∧
    start (2 :: 0 :: r) = ([2, 0], .error .typeError) :=
  ⟨rfl, rfl⟩

/-- C3: the client sends its 16-bit protocol version, the constant 2, as the
bytes `02 00`; reading the server's version `v` fails with the
protocol-mismatch error exactly when `v ≠ 2`, in which case `start` returns
that error having written nothing beyond the two version bytes and read
nothing beyond the server's two version bytes (the result does not depend on
`r`); when `v = 2` the handshake succeeds. -/
theorem c3_handshake (v : Int) (h1 : -32768 ≤ v) (h2 : v ≤ 32767) (r : Bytes) :
    sendProtocolVersion = ([2, 0], none) ∧
    (v ≠ 2 → readProtocolVersion ((packh v).1 ++ r) = .error .protocolMismatch ∧
      start ((packh v).1 ++ r) = ([2, 0], .error .protocolMismatch)) ∧
    (v = 2 → readProtocolVersion ((packh v).1 ++ r) = .ok r) := by
  have hread := readProtocolVersion_packh v h1 h2 r
  refine ⟨by decide, fun hv => ?_, fun hv => ?_⟩
  · have h3 : readProtocolVersion ((packh v).1 ++ r) = .error .protocolMismatch := by
      rw [hread, if_neg hv]
    refine ⟨h3, ?_⟩
    unfold start
    rw [h3]
    rfl
  · rw [hread, if_pos hv]

/-- Witness for C3: the handshake evaluated at server versions 5 and 2. -/
theorem c3_handshake_witness :
    (sendProtocolVersion = ([2, 0], none) ∧
      (readProtocolVersion ((packh 5).1 ++ [9]) = .error .protocolMismatch ∧
        start ((packh 5).1 ++ [9]) = ([2, 0], .error .protocolMismatch))) ∧
    readProtocolVersion ((packh 2).1 ++ [9]) = .ok [9] :=
  ⟨⟨(c3_handshake 5 (by decide) (by decide) [9]).1,
    (c3_handshake 5 (by decide) (by decide) [9]).2.1 (by decide)⟩,
   (c3_handshake 2 (by decide) (by decide) [9]).2.2 rfl⟩

/-- C4: a remove-process frame (tag 2) carrying name `b` removes the entry
keyed `b` when present (the resulting table no longer holds the key), and
fails with the `KeyError` of `dict.pop` — the spec's `UnknownProcess` — when
absent, that error terminating the update loop with the table unchanged. -/
theorem c4_remove_process (t : Table) (b : Bytes) (s : Bytes) (n : Nat)
    (hb : b.length ≤ 127) (hnd : (keys t).Nodup) :
    (PyV.bytes b ∈ keys t →
      ∃ p t2, readProcessUpdate t (2 :: ((b.length :: b) ++ s)) = .ok (true, t2, s) ∧
        dictPop t (.bytes b) = .ok (p, t2) ∧ PyV.bytes b ∉ keys t2) ∧
    (PyV.bytes b ∉ keys t →
      readProcessUpdate t (2 :: ((b.length :: b) ++ s)) = .error .keyError ∧
      readProcessUpdates (n + 1) t (2 :: ((b.length :: b) ++ s)) = t) := by
  constructor
  · intro hm
    obtain ⟨p, t2, hpop, hnot⟩ := dictPop_mem t (.bytes b) hnd hm
    exact ⟨p, t2, readProcessUpdate_removeFrame_ok t b s hb p t2 hpop, hpop, hnot⟩
  · intro hm
    have herr := readProcessUpdate_removeFrame_err t b s hb (dictPop_not_mem t _ hm)
    exact ⟨herr, readProcessUpdates_stop n t _ _ herr⟩

/-- Witness for C4: removal evaluated on a one-entry table (present) and on
the empty table (absent). -/
theorem c4_remove_process_witness :
    (PyV.bytes [110] ∈ keys tOne →
      ∃ p t2, readProcessUpdate tOne (2 :: (([110].length :: [110]) ++ [])) =
          .ok (true, t2, []) ∧
        dictPop tOne (.bytes [110]) = .ok (p, t2) ∧ PyV.bytes [110] ∉ keys t2) ∧
    (PyV.bytes [110] ∉ keys ([] : Table) →
      readProcessUpdate [] (2 :: (([110].length :: [110]) ++ [])) = .error .keyError ∧
      readProcessUpdates (0 + 1) [] (2 :: (([110].length :: [110]) ++ [])) = []) :=
  ⟨(c4_remove_process tOne [110] [] 0 (by decide) (by decide)).1,
   (c4_remove_process [] [110] [] 0 (by decide) (by decide)).2⟩

/-- C5: an update-frame tag other than 0, 1, 2 makes `__readProcessUpdate`
raise the unexpected-action error; an endpoint tag outside {0,1,2,3} or a
transport tag outside {0,1,2} makes `__readEndpoint` raise `ValueError`
(the `IntEnum` constructors reject them); and whenever one frame's decoding
raises, the update loop stops with the table as it stands, delivering no
further updates. -/
theorem c5_protocol_violation :
    (∀ (t : Table) (c : Nat) (s : Bytes),
      sbyte c ≠ 0 → sbyte c ≠ 1 → sbyte c ≠ 2 →
      readProcessUpdate t (c :: s) = .error .unexpectedAction) ∧
    (∀ (c : Nat) (s : Bytes),
      sbyte c ≠ 0 → sbyte c ≠ 1 → sbyte c ≠ 2 → sbyte c ≠ 3 →
      readEndpoint (c :: s) = .error .valueError) ∧
    (∀ (hb : Bytes) (port tv : Int) (s : Bytes), hb.length ≤ 127 →
      -2147483648 ≤ port → port ≤ 2147483647 →
      -2147483648 ≤ tv → tv ≤ 2147483647 →
      tv ≠ 0 → tv ≠ 1 → tv ≠ 2 →
      readEndpoint (2 :: ((hb.length :: hb) ++ ((packi port).1 ++ ((packi tv).1 ++ s)))) =
        .error .valueError) ∧
    (∀ (n : Nat) (t : Table) (s : Bytes) (e : PyErr),
      readProcessUpdate t s = .error e → readProcessUpdates (n + 1) t s = t) :=
  ⟨readProcessUpdate_badTag, readEndpoint_badTag, readEndpoint_badTransport,
   readProcessUpdates_stop⟩

/-- Witness for C5: tag 7 update frame, tag 9 endpoint, transport 5, each on
concrete streams, and the loop stopping on the bad frame. -/
theorem c5_protocol_violation_witness :
    readProcessUpdate [] [7] = .error .unexpectedAction ∧
    readEndpoint [9] = .error .valueError ∧
    readEndpoint (2 :: (([104].length :: [104]) ++ ((packi 80).1 ++ ((packi 5).1 ++ [])))) =
      .error .valueError ∧
    readProcessUpdates (3 + 1) [] [7] = [] :=
  ⟨c5_protocol_violation.1 [] 7 [] (by decide) (by decide) (by decide),
   c5_protocol_violation.2.1 9 [] (by decide) (by decide) (by decide) (by decide),
   c5_protocol_violation.2.2.1 [104] 80 5 [] (by decide) (by decide) (by decide)
     (by decide) (by decide) (by decide) (by decide) (by decide),
   c5_protocol_violation.2.2.2 3 [] [7] .unexpectedAction
     (c5_protocol_violation.1 [] 7 [] (by decide) (by decide) (by decide))⟩

/-- C6: `addProcess` and `removeProcess` only write frames to the socket:
the rendezvous table component of the client state is returned unchanged for
every table and every process argument. -/
theorem c6_outbound_preserves_table (t : Table) (p q : Process PyV) :
    (clientAddProcess t p).1 = t ∧ (clientRemoveProcess t q).1 = t :=
  ⟨rfl, rfl⟩

/-- C7: `rendezvous = {}` sits in the class body, so the dict is one
class-level object shared by every `RendezvousClient` instance and mutated in
place.  Concretely: starting from the table as it is at class definition
(empty), constructing a client does not create a fresh table; after one
client's update listener processes an add-process frame, the table read
through any other instance — including an instance constructed afterwards —
contains the added process, contradicting per-instance empty-at-construction
tables. -/
theorem c7_shared_class_table :
    initClient [] = ([] : Table) ∧
    readProcessUpdate (clientRendezvous (initClient [])) frameP =
      .ok (true, [(.bytes [112], procP)], []) ∧
    clientRendezvous [(.bytes [112], procP)] ≠ [] ∧
    initClient [(.bytes [112], procP)] = [(.bytes [112], procP)] ∧
    clientRendezvous (initClient [(.bytes [112], procP)]) ≠ [] := by
  decide

/-- C8: `__sendString` on a `str` of at most 127 encoded bytes sends exactly
the length byte followed by the bytes and `__readString` recovers those
bytes and leaves the remainder intact (no truncation); on 128 bytes or more,
`struct.pack('b', ...)` raises — the spec's `EncodingError` — and nothing is
sent. -/
theorem c8_string_limit (b : Bytes) (r : Bytes) :
    (b.length ≤ 127 →
      sendString (.str b) = (b.length :: b, none) ∧
      readString ((b.length :: b) ++ r) = .ok (.bytes b, r)) ∧
    (128 ≤ b.length → sendString (.str b) = ([], some .structError)) := by
  constructor
  · intro h
    exact ⟨sendString_str b h, readString_append b h r⟩
  · intro h
    simp only [sendString]
    rw [if_neg (show ¬ b.length ≤ 127 from by omega)]

set_option maxRecDepth 4000 in
/-- Witness for C8: the boundary evaluated at exactly 127 bytes (round trip
succeeds) and at 128 bytes (the sender rejects). -/
theorem c8_string_limit_witness :
    (sendString (.str (List.replicate 127 7)) =
        ((List.replicate 127 7).length :: List.replicate 127 7, none) ∧
      readString (((List.replicate 127 7).length :: List.replicate 127 7) ++ []) =
        .ok (.bytes (List.replicate 127 7), [])) ∧
    sendString (.str (List.replicate 128 7)) = ([], some .structError) :=
  ⟨(c8_string_limit (List.replicate 127 7) []).1 (by decide),
   (c8_string_limit (List.replicate 128 7) []).2 (by decide)⟩

/-- C9: the decoded value depends on how the transport fragments the stream:
`recv(4)` delivering the 4-byte integer 1 in full decodes to 1, but a legal
partial delivery of 2 bytes makes `struct.unpack('<i', ...)` raise
`struct.error` — the code never completes a short read, contradicting the
claimed blocking-until-complete semantics. -/
theorem c9_fragmentation_sensitive :
    readIntFrag 4 [1, 0, 0, 0] = .ok (1, []) ∧
    readIntFrag 2 [1, 0, 0, 0] = .error .structError ∧
    readInt [1, 0, 0, 0] = .ok (1, []) := by
  decide

/-- C10: `addProcess` on a process whose first endpoint carries an unknown
tag (a signed-byte value outside {0,1,2,3}) raises the unknown-endpoint
error only after the frame tag, name, version, endpoint count and the
unknown endpoint's tag byte have already been written to the socket: the
failure leaves the outbound stream mid-frame. -/
theorem c10_partial_write_unknown_endpoint (nm ver : Bytes) (tag : Int)
    (es : List (Endpoint PyV))
    (hnm : nm.length ≤ 127) (hver : ver.length ≤ 127)
    (ht1 : -128 ≤ tag) (ht2 : tag ≤ 127)
    (h0 : tag ≠ 0) (h1 : tag ≠ 1) (h2 : tag ≠ 2) (h3 : tag ≠ 3)
    (hlen : ((es.length + 1 : Nat) : Int) ≤ 2147483647) :
    addProcess ⟨.str nm, .str ver, .otherEndpoint tag :: es⟩ =
      (1 :: ((nm.length :: nm) ++ ((ver.length :: ver) ++
        ((packi ((es.length + 1 : Nat) : Int)).1 ++ [(tag % 256).toNat]))),
       some .unknownEndpoint) := by
  have e2 : encEndpoint (.otherEndpoint tag) =
      ([(tag % 256).toNat], some .unknownEndpoint) := by
    simp [encEndpoint, tagOf, encEndpointFields, wseq, packb_eq tag ht1 ht2]
  have e3 : encEndpoints (.otherEndpoint tag :: es) =
      ([(tag % 256).toNat], some .unknownEndpoint) := by
    show wseq (encEndpoint (.otherEndpoint tag)) (encEndpoints es) = _
    rw [e2]
    rfl
  have e4 : encProcessBody ⟨.str nm, .str ver, .otherEndpoint tag :: es⟩ =
      ((nm.length :: nm) ++ ((ver.length :: ver) ++
        ((packi ((es.length + 1 : Nat) : Int)).1 ++ [(tag % 256).toNat])),
       some .unknownEndpoint) := by
    show wseq (sendString (.str nm)) (wseq (sendString (.str ver))
      (wseq (packi (((Endpoint.otherEndpoint tag :: es).length : Nat) : Int))
        (encEndpoints (.otherEndpoint tag :: es)))) = _
    rw [e3, sendString_str nm hnm, sendString_str ver hver,
      wseq_eq (packi (((Endpoint.otherEndpoint tag :: es).length : Nat) : Int))
        ([(tag % 256).toNat], some .unknownEndpoint)
        (packi_none _ (by omega) (by simpa using hlen)),
      wseq_eq (ver.length :: ver, none) _ rfl,
      wseq_eq (nm.length :: nm, none) _ rfl]
    rfl
  show wseq (packb 1) (encProcessBody ⟨.str nm, .str ver, .otherEndpoint tag :: es⟩) = _
  rw [e4, wseq_eq (packb 1) _ (packb_none 1 (by omega) (by omega)),
    packb_eq 1 (by omega) (by omega)]
  rfl

/-- Witness for C10: the partial write evaluated on a one-endpoint process
with unknown tag 9. -/
theorem c10_partial_write_witness :
    addProcess ⟨.str [110], .str [], [.otherEndpoint 9]⟩ =
      ([1, 1, 110, 0, 1, 0, 0, 0, 9], some .unknownEndpoint) := by
  have h := c10_partial_write_unknown_endpoint [110] [] 9 [] (by decide) (by decide)
    (by decide) (by decide) (by decide) (by decide) (by decide) (by decide) (by decide)
  rw [h]
  decide

end Rendezvous
